import Mathlib

/-!
Verification development for the companion daemon.

This file gives a shallow embedding of the parts of the companion source that
the checked properties talk about, and proves (or refutes) each property over
that embedding:

* the plugin manager (src/web/server/plugins/manager.ts),
* the session-creation pipeline's init-script step
  (src/web/server/session-creation-pipeline.ts),
* the worktree cleanup helper of the HTTP route layer,
* the linear-project mapping store (src/web/server/linear-project-manager.ts),
* the browser client's sequence cursor (src/web/src/ws.ts and the browser
  message handlers), and
* token verification (src/web/server/auth-manager.ts).

JavaScript values are modelled as plain data: optional fields become `Option`,
JS objects used as string-keyed records become association lists, thrown
exceptions and rejected promises become `Except`/explicit error outcomes, and
wall-clock reads (`Date.now()`) become explicit parameters or are omitted from
identifiers where they only decorate log ids.
-/

namespace Companion.Plugins

/-- Insight record produced by plugins (shape used by manager.ts:
`{id, plugin_id, title, message, level, timestamp, event_name?, session_id?}`;
the wall-clock `timestamp` is omitted). -/
structure PluginInsight where
  id : String
  plugin_id : String
  title : String
  message : String
  level : String
  event_name : Option String := none
  session_id : Option String := none
  deriving Repr, DecidableEq

/-- `PermissionAutomationDecision` as used by manager.ts and its tests:
`{behavior, message, pluginId}`. -/
structure PermissionAutomationDecision where
  behavior : String
  message : String
  pluginId : String
  deriving Repr, DecidableEq

/-- A user-message mutation as it appears in the plugin result type exercised
by manager.test.ts (`{content, pluginId}`). The manager under src/ never reads
this field; it is carried for fidelity to the result type. -/
structure UserMessageMutation where
  content : String
  pluginId : String
  deriving Repr, DecidableEq

/-- `PluginEventResult`: `{insights?, permissionDecision?, userMessageMutation?}`. -/
structure PluginEventResult where
  insights : List PluginInsight := []
  permissionDecision : Option PermissionAutomationDecision := none
  userMessageMutation : Option UserMessageMutation := none
  deriving Repr, DecidableEq

/-- The fields of a `PluginEvent` that manager.ts reads: `event.name` and
`event.meta.sessionId`. -/
structure PluginEvent where
  name : String
  sessionId : Option String := none
  deriving Repr, DecidableEq

/-- Crystallized outcome of
`runWithTimeout(Promise.resolve(plugin.onEvent(event, config)), timeoutMs)`
(manager.ts lines 46-62): the promise either resolves with the handler's value
(JS `undefined` becomes `none`) or rejects - by a thrown exception, an
explicit rejection, or the timeout timer, which rejects with
`Plugin timeout after {timeoutMs}ms`. Real elapsed time is not modelled; only
the resolved-or-rejected shape that the caller of `runWithTimeout` can
observe. -/
inductive RunOutcome where
  | ok : Option PluginEventResult → RunOutcome
  | error : String → RunOutcome
  deriving Repr, DecidableEq

/-- `PluginDefinition` with the fields manager.ts and manager.test.ts use.
`capabilities` appears in the definitions registered by manager.test.ts
(for example `["permission:auto-decide"]`); the manager under src/ never
reads it. `onEvent` is the handler, with its outcome already crystallized
per `RunOutcome`. -/
structure PluginDefinition (Config : Type) where
  id : String
  name : String := ""
  version : String := "1.0.0"
  description : String := ""
  events : List String
  priority : Int
  blocking : Bool
  timeoutMs : Option Nat := none
  failPolicy : Option String := none
  defaultEnabled : Bool
  defaultConfig : Config
  validateConfig : Option (Config → Except String Config) := none
  capabilities : List String := []
  onEvent : PluginEvent → Config → RunOutcome

/-- Association-list lookup for JS objects used as string-keyed records. -/
def alookup {α : Type} (key : String) : List (String × α) → Option α
  | [] => none
  | (k, v) :: rest => if k = key then some v else alookup key rest

/-- Persisted plugin state as read by manager.ts (`state.enabled[id]`,
`state.config[id]`). The `grants` table is modelled from the spec: the
persisted `plugins.json` is `{updatedAt, enabled, config, grants:
{id→{cap→bool}}}`; the manager under src/ never reads `grants`. -/
structure PluginState (Config : Type) where
  enabled : List (String × Bool) := []
  config : List (String × Config) := []
  grants : List (String × List (String × Bool)) := []
  deriving Repr

/-- Outcome of `PluginManager.resolveConfig` (manager.ts lines 80-101),
with its side effects made explicit: `warned` is the updated
`warnedInvalidConfig` set, `warnings` lists the plugin ids named by
`console.warn` calls, and `persists` lists the `stateStore.update` writes
`draft.config[plugin.id] = plugin.defaultConfig`. -/
structure ResolveOutcome (Config : Type) where
  config : Config
  warned : List String
  warnings : List String
  persists : List (String × Config)
  deriving Repr, DecidableEq

/-- `PluginManager.resolveConfig(plugin, stateConfig, options)` (manager.ts
lines 80-101): `rawConfig = stateConfig ?? plugin.defaultConfig`; without a
validator return it; otherwise validate, and on a validation error warn once
per plugin id, persist the default when `persistDefaultOnInvalid` is set and
a state config was present, and fall back to `plugin.defaultConfig`. -/
def resolveConfig {Config : Type} (plugin : PluginDefinition Config)
    (stateConfig : Option Config) (persistDefaultOnInvalid : Bool)
    (warned : List String) : ResolveOutcome Config :=
  let rawConfig := stateConfig.getD plugin.defaultConfig
  match plugin.validateConfig with
  | none => ⟨rawConfig, warned, [], []⟩
  | some validate =>
    match validate rawConfig with
    | Except.ok cfg => ⟨cfg, warned, [], []⟩
    | Except.error _ =>
      let warned' := if plugin.id ∈ warned then warned else plugin.id :: warned
      let warnings := if plugin.id ∈ warned then [] else [plugin.id]
      let persists :=
        if persistDefaultOnInvalid && stateConfig.isSome then
          [(plugin.id, plugin.defaultConfig)]
        else []
      ⟨plugin.defaultConfig, warned', warnings, persists⟩

/-- One call to `resolveConfig`, for reasoning about call sequences. -/
structure ResolveCall (Config : Type) where
  plugin : PluginDefinition Config
  stateConfig : Option Config
  persistDefaultOnInvalid : Bool

/-- Run a sequence of `resolveConfig` calls threading the
`warnedInvalidConfig` set, returning the final set and every warning emitted
(in order, as the plugin ids named by `console.warn`). -/
def resolveConfigRun {Config : Type} :
    List (ResolveCall Config) → List String → List String × List String
  | [], warned => (warned, [])
  | c :: rest, warned =>
    let o := resolveConfig c.plugin c.stateConfig c.persistDefaultOnInvalid warned
    let r := resolveConfigRun rest o.warned
    (r.1, o.warnings ++ r.2)

/-- `toPluginErrorInsight(pluginId, event, err)` (manager.ts lines 33-44).
The `Date.now()` component of the generated id and the `timestamp` field are
wall-clock and omitted. -/
def toPluginErrorInsight (pluginId : String) (event : PluginEvent)
    (err : String) : PluginInsight :=
  { id := pluginId ++ "-error"
    plugin_id := pluginId
    title := "Plugin error"
    message := err
    level := "error"
    event_name := some event.name
    session_id := event.sessionId }

/-- `EmitResult` (manager.ts lines 11-15). -/
structure EmitResult where
  insights : List PluginInsight := []
  permissionDecision : Option PermissionAutomationDecision := none
  aborted : Bool := false
  deriving Repr, DecidableEq

/-- Accumulated state of the dispatch loop in `PluginManager.emit`
(manager.ts lines 157-211), instrumented with the observable side channel:
`invoked` records the plugins whose handler run was started, in order;
`onInsightCalls` records the insights delivered through the
`options.onInsight` callback by the non-blocking path; `warned` and
`persists` thread the `resolveConfig` side effects. -/
structure EmitAcc (Config : Type) where
  insights : List PluginInsight := []
  permissionDecision : Option PermissionAutomationDecision := none
  aborted : Bool := false
  invoked : List String := []
  onInsightCalls : List PluginInsight := []
  warned : List String := []
  persists : List (String × Config) := []
  deriving Repr, DecidableEq

/-- The `EmitResult` part of the loop state. -/
def EmitAcc.result {Config : Type} (a : EmitAcc Config) : EmitResult :=
  { insights := a.insights
    permissionDecision := a.permissionDecision
    aborted := a.aborted }

/-- `typeof savedEnabled === "boolean" ? savedEnabled : plugin.defaultEnabled`
(manager.ts lines 168-169). -/
def enabledOf {Config : Type} (state : PluginState Config)
    (p : PluginDefinition Config) : Bool :=
  (alookup p.id state.enabled).getD p.defaultEnabled

/-- `plugin.events.includes(event.name)` (manager.ts line 164). This is the
whole candidate filter: there is no handling of a `"*"` wildcard
subscription in the file under src/. -/
def matchesEvent {Config : Type} (p : PluginDefinition Config)
    (eventName : String) : Bool :=
  p.events.contains eventName

/-- Stable insertion step for descending-priority order: an element is
placed before the first element whose priority does not exceed it, so
earlier elements stay before later ones of equal priority. -/
def insertByPriority {Config : Type} (p : PluginDefinition Config) :
    List (PluginDefinition Config) → List (PluginDefinition Config)
  | [] => [p]
  | q :: rest =>
    if q.priority ≤ p.priority then p :: q :: rest
    else q :: insertByPriority p rest

/-- `.sort((a, b) => b.priority - a.priority)` (manager.ts line 165):
JS `Array.prototype.sort` is stable, so this is the stable
descending-priority sort. -/
def sortByPriorityDesc {Config : Type} :
    List (PluginDefinition Config) → List (PluginDefinition Config)
  | [] => []
  | p :: rest => insertByPriority p (sortByPriorityDesc rest)

/-- The candidate list of `emit` (manager.ts lines 163-165): registered
definitions (in registration order, as `Map` preserves insertion order)
filtered by `events.includes(event.name)` and stably sorted by descending
priority. -/
def dispatchList {Config : Type} (defs : List (PluginDefinition Config))
    (eventName : String) : List (PluginDefinition Config) :=
  sortByPriorityDesc (defs.filter (fun p => matchesEvent p eventName))

/-- `if (!permissionDecision && result.permissionDecision) permissionDecision
= result.permissionDecision` (manager.ts lines 205-207). -/
def keepFirst (a b : Option PermissionAutomationDecision) :
    Option PermissionAutomationDecision :=
  match a with
  | some d => some d
  | none => b

/-- Insights delivered through `options.onInsight` by the non-blocking branch
(manager.ts lines 177-189): on success each result insight is forwarded (an
empty or missing list forwards nothing); on failure a synthesized plugin
error insight is forwarded. -/
def nonBlockingInsights {Config : Type} (p : PluginDefinition Config)
    (event : PluginEvent) (cfg : Config) : List PluginInsight :=
  match p.onEvent event cfg with
  | RunOutcome.ok (some r) => r.insights
  | RunOutcome.ok none => []
  | RunOutcome.error e => [toPluginErrorInsight p.id event e]

/-- The dispatch loop of `PluginManager.emit` (manager.ts lines 167-208),
iterating over the sorted candidates: skip disabled plugins; resolve config
(with `persistDefaultOnInvalid: true`); fire-and-forget non-blocking plugins
(their insights or error insight go to the `onInsight` callback only); await
blocking plugins - on failure push a synthesized error insight and, when the
fail policy is `abort_current_action`, mark the result aborted and stop;
otherwise collect result insights and keep the first permission decision.
The config lookups use the `state` snapshot taken at the top of `emit`, not
the updated store. -/
def emitLoop {Config : Type} (state : PluginState Config) (event : PluginEvent) :
    List (PluginDefinition Config) → EmitAcc Config → EmitAcc Config
  | [], acc => acc
  | p :: rest, acc =>
    if enabledOf state p = false then
      emitLoop state event rest acc
    else
      let ro := resolveConfig p (alookup p.id state.config) true acc.warned
      let acc1 : EmitAcc Config :=
        { acc with warned := ro.warned, persists := acc.persists ++ ro.persists }
      if p.blocking = false then
        emitLoop state event rest
          { acc1 with
              invoked := acc1.invoked ++ [p.id]
              onInsightCalls := acc1.onInsightCalls ++ nonBlockingInsights p event ro.config }
      else
        match p.onEvent event ro.config with
        | RunOutcome.error e =>
          let acc2 : EmitAcc Config :=
            { acc1 with
                invoked := acc1.invoked ++ [p.id]
                insights := acc1.insights ++ [toPluginErrorInsight p.id event e] }
          if p.failPolicy.getD "continue" = "abort_current_action" then
            { acc2 with aborted := true }
          else
            emitLoop state event rest acc2
        | RunOutcome.ok none =>
          emitLoop state event rest { acc1 with invoked := acc1.invoked ++ [p.id] }
        | RunOutcome.ok (some r) =>
          emitLoop state event rest
            { acc1 with
                invoked := acc1.invoked ++ [p.id]
                insights := acc1.insights ++ r.insights
                permissionDecision := keepFirst acc1.permissionDecision r.permissionDecision }

/-- `PluginManager.emit(event, options)` (manager.ts lines 157-211): take the
state snapshot, build the dispatch list, and run the loop from the empty
accumulator. -/
def emit {Config : Type} (defs : List (PluginDefinition Config))
    (state : PluginState Config) (event : PluginEvent) : EmitAcc Config :=
  emitLoop state event (dispatchList defs event.name) {}

/-- The permission decision a blocking plugin run contributes: the decision
of a successfully returned result, nothing on `undefined` or failure. The
config argument is the one `emit` resolves; its value does not depend on the
warned set (proved below), so the empty set is used here. -/
def blockingDecision {Config : Type} (state : PluginState Config)
    (event : PluginEvent) (p : PluginDefinition Config) :
    Option PermissionAutomationDecision :=
  match p.onEvent event (resolveConfig p (alookup p.id state.config) true []).config with
  | RunOutcome.ok (some r) => r.permissionDecision
  | _ => none

/-- Specification-side description of the permission decisions returned by
enabled blocking plugins, in dispatch order. -/
def decisionsList {Config : Type} (state : PluginState Config)
    (event : PluginEvent) (l : List (PluginDefinition Config)) :
    List PermissionAutomationDecision :=
  (l.filter (fun p => enabledOf state p && p.blocking)).filterMap
    (blockingDecision state event)

/-- No enabled, blocking plugin of the list both fails and carries the
`abort_current_action` fail policy (so the dispatch loop never breaks
early). -/
def NoAbortRun {Config : Type} (state : PluginState Config)
    (event : PluginEvent) (l : List (PluginDefinition Config)) : Prop :=
  ∀ p ∈ l, enabledOf state p = true → p.blocking = true →
    p.failPolicy.getD "continue" = "abort_current_action" →
    ∀ e, p.onEvent event (resolveConfig p (alookup p.id state.config) true []).config ≠ RunOutcome.error e

end Companion.Plugins

namespace Companion.Pipeline

/-- Result of `containerManager.execInContainerAsync` when the exec promise
resolves (`ExecStreaming` in the spec): exit code plus the combined output
log. -/
structure ExecStreamingResult where
  exitCode : Int
  output : String
  deriving Repr, DecidableEq

/-- Crystallized behavior of the init-script exec: the promise either
resolves with an `ExecStreamingResult` or rejects (exception / timeout),
carrying the error message. -/
inductive InitExec where
  | result : ExecStreamingResult → InitExec
  | thrown : String → InitExec
  deriving Repr, DecidableEq

/-- Observable outcome of the pipeline from the `running_init_script` step on
(session-creation-pipeline.ts lines 346-391): whether
`containerManager.removeContainer(tempId)` was called, the
`reporter.error(message, status, step)` call if any, and whether control
reached `launching_cli` (a `PipelineAbort` is thrown right after every
`r.error`, so no session is created once an error is reported). -/
structure InitStepOutcome where
  containerRemoved : Bool
  errorReport : Option (String × Nat × String) := none
  reachedLaunch : Bool
  deriving Repr, DecidableEq

/-- JS `String.prototype.trim` over the character list (ASCII and Unicode
whitespace per `Char.isWhitespace`). -/
def jsTrim (s : String) : String :=
  String.mk (((s.data.dropWhile Char.isWhitespace).reverse.dropWhile Char.isWhitespace).reverse)

/-- The `running_init_script` step (session-creation-pipeline.ts lines
346-391): when the environment profile defines a non-blank init script, run
it; a rejected exec tears down the container and reports
`Init script execution failed: {reason}`; a non-zero exit tears down the
container and reports `Init script failed (exit {code}):\n{output}` with the
output cut to its first 500 plus last 1500 characters when longer than 2000;
otherwise (or without an init script) the pipeline proceeds to
`launching_cli`. -/
def runInitScriptStep (initScript : Option String) (exec : InitExec) :
    InitStepOutcome :=
  match initScript with
  | none => { containerRemoved := false, reachedLaunch := true }
  | some script =>
    if jsTrim script = "" then
      { containerRemoved := false, reachedLaunch := true }
    else
      match exec with
      | InitExec.thrown reason =>
        { containerRemoved := true
          errorReport := some ("Init script execution failed: " ++ reason, 503, "running_init_script")
          reachedLaunch := false }
      | InitExec.result res =>
        if res.exitCode ≠ 0 then
          let truncated :=
            if res.output.length > 2000 then
              res.output.take 500 ++ "\n...[truncated]...\n" ++ res.output.takeRight 1500
            else res.output
          { containerRemoved := true
            errorReport := some
              ("Init script failed (exit " ++ toString res.exitCode ++ "):\n" ++ truncated,
               503, "running_init_script")
            reachedLaunch := false }
        else
          { containerRemoved := false, reachedLaunch := true }

end Companion.Pipeline

namespace Companion.Worktree

/-- A worktree mapping as tracked per session (spec section 3: session id,
repo root, requested branch, actual branch created, worktree path).
`actualBranch` is optional because the route code guards on its
truthiness. -/
structure WorktreeMapping where
  sessionId : String
  repoRoot : String
  branch : String
  actualBranch : Option String := none
  worktreePath : String
  deriving Repr, DecidableEq

/-- Result of `gitUtils.removeWorktree`, instrumented with the branch it
deleted, if any. -/
structure RemoveWorktreeResult where
  removed : Bool
  deletedBranch : Option String := none
  deriving Repr, DecidableEq

/-- Modelled from the spec: git-utils.ts is not under src/. Spec section 4.2:
`RemoveWorktree(repoRoot, path, {force, branchToDelete}) → {removed}`: dirty
without `force` returns `removed: false`; the companion-created derived
branch passed as `branchToDelete` is deleted only after successful worktree
removal. -/
def removeWorktree (dirty : Bool) (force : Bool)
    (branchToDelete : Option String) : RemoveWorktreeResult :=
  if dirty && !force then { removed := false }
  else { removed := true, deletedBranch := branchToDelete }

/-- Modelled from the spec: worktree-tracker.ts is not under src/. The
tracker keeps one mapping per session; `getBySession` looks the session up. -/
def getBySession (tracker : List WorktreeMapping) (sessionId : String) :
    Option WorktreeMapping :=
  tracker.find? (fun m => m.sessionId == sessionId)

/-- Modelled from the spec: a worktree is in use when at least one other
session's mapping references its path (spec section 3). -/
def isWorktreeInUse (tracker : List WorktreeMapping) (path : String)
    (sessionId : String) : Bool :=
  tracker.any (fun m => m.worktreePath == path && m.sessionId != sessionId)

/-- Modelled from the spec: drop the given session's mapping from the
tracker. -/
def removeBySession (tracker : List WorktreeMapping) (sessionId : String) :
    List WorktreeMapping :=
  tracker.filter (fun m => m.sessionId != sessionId)

/-- The `{cleaned?, dirty?, path?}` record returned by the route helper. -/
structure CleanupResult where
  cleaned : Option Bool := none
  dirty : Option Bool := none
  path : Option String := none
  deriving Repr, DecidableEq

/-- Outcome of `cleanupWorktree`, instrumented with the final tracker state
and the `gitUtils.removeWorktree` call it made, if any. -/
structure CleanupOutcome where
  result : Option CleanupResult
  tracker : List WorktreeMapping
  removeCall : Option RemoveWorktreeResult := none
  deriving Repr, DecidableEq

/-- The `branchToDelete` computed by the cleanup helper:
`mapping.actualBranch && mapping.actualBranch !== mapping.branch ?
mapping.actualBranch : undefined` (the truthiness test also rejects the
empty string). -/
def branchToDeleteOf (mapping : WorktreeMapping) : Option String :=
  match mapping.actualBranch with
  | some a => if a != "" && a != mapping.branch then some a else none
  | none => none

/-- The route layer's `cleanupWorktree(sessionId, force)` helper: no mapping
returns `undefined`; a worktree still used by another session only drops
this session's mapping; a dirty worktree without `force` is refused as
`{cleaned: false, dirty: true, path}`; otherwise the worktree is removed
(force-removed when dirty), deleting the companion-managed branch only when
`actualBranch` is set and differs from the requested branch, and the mapping
is dropped when removal succeeded. `dirtyOf` stands for
`gitUtils.isWorktreeDirty`. -/
def cleanupWorktree (tracker : List WorktreeMapping) (dirtyOf : String → Bool)
    (sessionId : String) (force : Bool) : CleanupOutcome :=
  match getBySession tracker sessionId with
  | none => { result := none, tracker := tracker }
  | some mapping =>
    if isWorktreeInUse tracker mapping.worktreePath sessionId then
      { result := some { cleaned := some false, path := some mapping.worktreePath }
        tracker := removeBySession tracker sessionId }
    else
      let dirty := dirtyOf mapping.worktreePath
      if dirty && !force then
        { result := some { cleaned := some false, dirty := some true, path := some mapping.worktreePath }
          tracker := tracker }
      else
        let r := removeWorktree dirty dirty (branchToDeleteOf mapping)
        { result := some { cleaned := some r.removed, path := some mapping.worktreePath }
          tracker := if r.removed then removeBySession tracker sessionId else tracker
          removeCall := some r }

end Companion.Worktree

namespace Companion.Linear

/-- A row of `linear-projects.json`
(`{repoRoot, teamId, teamKey, teamName, createdAt, updatedAt}`). -/
structure LinearProjectMapping where
  repoRoot : String
  teamId : String
  teamKey : String
  teamName : String
  createdAt : Nat
  updatedAt : Nat
  deriving Repr, DecidableEq

/-- The team fields passed to `upsertMapping`. -/
structure TeamData where
  teamId : String
  teamKey : String
  teamName : String
  deriving Repr, DecidableEq

/-- `normalizeRoot(root)` (linear-project-manager.ts lines 31-33):
`root.replace(/\/+$/, "") || "/"` - strip all trailing slashes, and an empty
result becomes `"/"`. -/
def normalizeRoot (root : String) : String :=
  let stripped := String.mk ((root.data.reverse.dropWhile (fun c => c = '/')).reverse)
  if stripped = "" then "/" else stripped

/-- `getMapping(repoRoot)`: find the first mapping whose `repoRoot` equals
the normalized key. -/
def getMapping (mappings : List LinearProjectMapping) (repoRoot : String) :
    Option LinearProjectMapping :=
  mappings.find? (fun m => m.repoRoot == normalizeRoot repoRoot)

/-- The in-place update `upsertMapping` performs on an existing mapping:
team fields and `updatedAt` change, `repoRoot` and `createdAt` stay. -/
def updateTeamFields (d : TeamData) (now : Nat) (m : LinearProjectMapping) :
    LinearProjectMapping :=
  { m with teamId := d.teamId, teamKey := d.teamKey, teamName := d.teamName, updatedAt := now }

/-- Update the first mapping matching the key (the source mutates the result
of `mappings.find`). -/
def upsertFirst (key : String) (d : TeamData) (now : Nat) :
    List LinearProjectMapping → List LinearProjectMapping
  | [] => []
  | m :: rest =>
    if m.repoRoot == key then updateTeamFields d now m :: rest
    else m :: upsertFirst key d now rest

/-- `upsertMapping(repoRoot, data)` (linear-project-manager.ts lines 74-99),
with `Date.now()` passed in as `now`: update the existing mapping for the
normalized key, or append a fresh one with `createdAt = updatedAt = now`. -/
def upsertMapping (mappings : List LinearProjectMapping) (repoRoot : String)
    (d : TeamData) (now : Nat) : List LinearProjectMapping :=
  let key := normalizeRoot repoRoot
  if (mappings.find? (fun m => m.repoRoot == key)).isSome then
    upsertFirst key d now mappings
  else
    mappings ++ [{ repoRoot := key, teamId := d.teamId, teamKey := d.teamKey,
                   teamName := d.teamName, createdAt := now, updatedAt := now }]

/-- The states `ensureLoaded` (linear-project-manager.ts lines 35-56) can
find `linear-projects.json` in: absent, unparseable JSON (the catch branch),
parseable but not an array, or an array whose entries either pass the
row type guard (`some row`) or fail it (`none`). -/
inductive LinearProjectsFile where
  | missing
  | corrupt
  | notArray
  | array (entries : List (Option LinearProjectMapping))
  deriving Repr, DecidableEq

/-- The mapping list `ensureLoaded` produces from the file: empty unless the
file is a JSON array, in which case the entries failing the type guard are
filtered out. -/
def loadMappings : LinearProjectsFile → List LinearProjectMapping
  | LinearProjectsFile.missing => []
  | LinearProjectsFile.corrupt => []
  | LinearProjectsFile.notArray => []
  | LinearProjectsFile.array entries => entries.filterMap id

end Companion.Linear

namespace Companion.Client

/-- A message arriving on the browser WebSocket after JSON parsing: either a
single server message, carrying a numeric `seq` or not, or an
`event_replay{events: [{seq, message}]}` batch. Payload bodies are opaque
strings. -/
inductive BrowserIncomingMessage where
  | plain (seq : Option Nat) (payload : String)
  | eventReplay (events : List (Nat × String))
  deriving Repr, DecidableEq

/-- Record of one message actually handed to the type dispatch: the cursor
value at that moment and the message's seq (if it carried one). -/
structure HandledRecord where
  prevCursor : Nat
  seq : Option Nat
  payload : String
  deriving Repr, DecidableEq

/-- `handleEventReplay` (browser message handlers, lines 555-575): walk the
batch; an entry whose `seq` does not exceed the current cursor is skipped;
otherwise the cursor is set to the entry's seq and the entry's message is
dispatched with `processSeq: false`. Returns the new cursor and the handled
entries in order. -/
def handleEventReplay (cursor : Nat) :
    List (Nat × String) → Nat × List HandledRecord
  | [] => (cursor, [])
  | (s, m) :: rest =>
    if s ≤ cursor then handleEventReplay cursor rest
    else
      let r := handleEventReplay s rest
      (r.1, ⟨cursor, some s, m⟩ :: r.2)

/-- `handleParsedMessage` with the default `processSeq = true` (ws.ts lines
202-216): a message carrying a numeric `seq` is dropped when
`seq <= getLastSeq(sessionId)` and otherwise handled after
`setLastSeq(sessionId, seq)`; a message without `seq` is always handled;
an `event_replay` batch is filtered entry-wise by `handleEventReplay`.
Returns the new cursor and the handled messages. -/
def handleParsedMessage (cursor : Nat) (msg : BrowserIncomingMessage) :
    Nat × List HandledRecord :=
  match msg with
  | BrowserIncomingMessage.plain (some n) payload =>
    if n ≤ cursor then (cursor, [])
    else (n, [⟨cursor, some n, payload⟩])
  | BrowserIncomingMessage.plain none payload => (cursor, [⟨cursor, none, payload⟩])
  | BrowserIncomingMessage.eventReplay events => handleEventReplay cursor events

/-- Process a whole stream of incoming messages, threading the per-session
cursor. -/
def processMessages (cursor : Nat) :
    List BrowserIncomingMessage → Nat × List HandledRecord
  | [] => (cursor, [])
  | m :: rest =>
    let r1 := handleParsedMessage cursor m
    let r2 := processMessages r1.1 rest
    (r2.1, r1.2 ++ r2.2)

end Companion.Client

namespace Companion.Auth

/-- `crypto.timingSafeEqual(a, b)` over byte lists: throws on buffers of
unequal length, otherwise compares contents (the constant-time aspect is a
timing property, not a functional one). -/
def timingSafeEqual (a b : List Nat) : Except String Bool :=
  if a.length = b.length then Except.ok (a == b)
  else Except.error "Input buffers must have the same byte length"

/-- `verifyToken(candidate)` (auth-manager.ts lines 64-71) over the UTF-8
bytes of the strings involved: `null`/`undefined` become `none` and the
empty string becomes `some []` (both falsy, caught by `if (!candidate)`);
then the byte-length guard; then `timingSafeEqual`. The stored token is the
`getToken()` result, passed in as `token`. -/
def verifyToken (candidate : Option (List Nat)) (token : List Nat) :
    Except String Bool :=
  match candidate with
  | none => Except.ok false
  | some c =>
    if c.isEmpty then Except.ok false
    else if c.length ≠ token.length then Except.ok false
    else timingSafeEqual c token

end Companion.Auth

namespace Companion.Fixtures

open Companion.Plugins

/-- The decision returned by the gated plugin of manager.test.ts
("applies capability grants to block privileged outputs"). -/
def gatedDecision : PermissionAutomationDecision :=
  { behavior := "deny", message := "blocked", pluginId := "gated-plugin" }

/-- The gated plugin of manager.test.ts lines 472-543: blocking, enabled by
default, declares `capabilities: ["permission:auto-decide"]`, and returns a
deny decision on every event. -/
def gatedPlugin : PluginDefinition String :=
  { id := "gated-plugin"
    name := "Gated"
    description := "Requires capabilities"
    events := ["permission.requested"]
    priority := 10
    blocking := true
    defaultEnabled := true
    defaultConfig := ""
    capabilities := ["permission:auto-decide"]
    onEvent := fun _ _ => RunOutcome.ok (some { permissionDecision := some gatedDecision }) }

/-- Plugin state after
`manager.updateCapabilityGrants("gated-plugin", {"permission:auto-decide": false})`:
the persisted grants deny the capability. -/
def gatedState : PluginState String :=
  { grants := [("gated-plugin", [("permission:auto-decide", false)])] }

/-- The `permission.requested` event of the capability-grant test. -/
def permissionEvent : PluginEvent :=
  { name := "permission.requested", sessionId := some "s1" }

/-- An insight a wildcard subscriber would produce if it ran. -/
def wildcardInsight : PluginInsight :=
  { id := "g1", plugin_id := "global-plugin", title := "Global"
    message := "ran", level := "info" }

/-- The wildcard plugin of manager.test.ts lines 379-401: subscribes to
`["*"]`, blocking, enabled by default. -/
def globalPlugin : PluginDefinition String :=
  { id := "global-plugin"
    name := "Global"
    description := "Runs on all events"
    events := ["*"]
    priority := 100
    blocking := true
    defaultEnabled := true
    defaultConfig := ""
    capabilities := ["message:mutate"]
    onEvent := fun _ _ => RunOutcome.ok (some { insights := [wildcardInsight] }) }

/-- The `user.message.before_send` event of the wildcard test. -/
def beforeSendEvent : PluginEvent :=
  { name := "user.message.before_send", sessionId := some "s1" }

/-- Decision of the high-priority blocking plugin. -/
def decisionHigh : PermissionAutomationDecision :=
  { behavior := "allow", message := "from high", pluginId := "high-plugin" }

/-- Decision of the low-priority blocking plugin. -/
def decisionLow : PermissionAutomationDecision :=
  { behavior := "deny", message := "from low", pluginId := "low-plugin" }

/-- High-priority blocking plugin returning a decision. -/
def highPlugin : PluginDefinition String :=
  { id := "high-plugin"
    events := ["permission.requested"]
    priority := 100
    blocking := true
    defaultEnabled := true
    defaultConfig := ""
    onEvent := fun _ _ => RunOutcome.ok (some { permissionDecision := some decisionHigh }) }

/-- Low-priority blocking plugin returning a decision (to be discarded). -/
def lowPlugin : PluginDefinition String :=
  { id := "low-plugin"
    events := ["permission.requested"]
    priority := 10
    blocking := true
    defaultEnabled := true
    defaultConfig := ""
    onEvent := fun _ _ => RunOutcome.ok (some { permissionDecision := some decisionLow }) }

/-- Non-blocking plugin that returns a decision (never surfaced) and an
insight (surfaced only through the `onInsight` callback). -/
def asyncPlugin : PluginDefinition String :=
  { id := "async-plugin"
    events := ["permission.requested"]
    priority := 50
    blocking := false
    defaultEnabled := true
    defaultConfig := ""
    onEvent := fun _ _ =>
      RunOutcome.ok (some
        { insights := [{ id := "a1", plugin_id := "async-plugin", title := "Async"
                         message := "side effect", level := "info" }]
          permissionDecision := some { behavior := "deny", message := "ignored", pluginId := "async-plugin" } }) }

/-- Registration list for the decision-ordering scenario (registration order
deliberately not priority order). -/
def c2Defs : List (PluginDefinition String) := [lowPlugin, asyncPlugin, highPlugin]

/-- Empty plugin state: every plugin falls back to `defaultEnabled` and
`defaultConfig`. -/
def emptyState : PluginState String := {}

/-- A blocking plugin whose handler always fails, with the default
(`continue`) fail policy. -/
def failingPlugin : PluginDefinition String :=
  { id := "failing-plugin"
    events := ["session.created"]
    priority := 5
    blocking := true
    defaultEnabled := true
    defaultConfig := ""
    onEvent := fun _ _ => RunOutcome.error "boom" }

/-- The `session.created` event used by the failure scenarios. -/
def sessionCreatedEvent : PluginEvent :=
  { name := "session.created", sessionId := some "s1" }

/-- Validator accepting only the string `ok` (stand-in for the config schema
check of manager.test.ts's broken-config plugin). -/
def strictValidate : String → Except String String :=
  fun c => if c = "ok" then Except.ok c else Except.error "invalid config"

/-- Plugin with a config validator and default config `ok`. -/
def strictPlugin : PluginDefinition String :=
  { id := "strict-plugin"
    events := ["session.created"]
    priority := 1
    blocking := true
    defaultEnabled := true
    defaultConfig := "ok"
    validateConfig := some strictValidate
    onEvent := fun _ _ => RunOutcome.ok none }

/-- One `resolveConfig` call with an invalid persisted config. -/
def strictCall : ResolveCall String :=
  { plugin := strictPlugin, stateConfig := some "bad", persistDefaultOnInvalid := true }

end Companion.Fixtures

namespace Companion.Fixtures

open Companion.Worktree

/-- Mapping of session `s1`: the companion synthesized branch
`companion/feat-1` for requested branch `feat`. -/
def wtMappingS1 : WorktreeMapping :=
  { sessionId := "s1", repoRoot := "/repo", branch := "feat"
    actualBranch := some "companion/feat-1", worktreePath := "/wt" }

/-- Mapping of session `s2` sharing the same worktree path. -/
def wtMappingS2 : WorktreeMapping :=
  { sessionId := "s2", repoRoot := "/repo", branch := "feat"
    actualBranch := some "companion/feat-1", worktreePath := "/wt" }

/-- Tracker with two sessions sharing one worktree. -/
def sharedTracker : List WorktreeMapping := [wtMappingS1, wtMappingS2]

/-- Tracker with `s1` alone on its worktree. -/
def soloTracker : List WorktreeMapping := [wtMappingS1]

end Companion.Fixtures

namespace Companion.Plugins

variable {Config : Type}

/-- The effective config produced by `resolveConfig` does not depend on the
`warnedInvalidConfig` set (which only gates the warning). -/
theorem resolveConfig_config_eq (p : PluginDefinition Config)
    (sc : Option Config) (b : Bool) (w w' : List String) :
    (resolveConfig p sc b w).config = (resolveConfig p sc b w').config := by
  cases hval : p.validateConfig with
  | none => simp [resolveConfig, hval]
  | some validate =>
    cases hres : validate (sc.getD p.defaultConfig) with
    | ok cfg => simp [resolveConfig, hval, hres]
    | error msg => simp [resolveConfig, hval, hres]

/-- Dispatch-loop step: a disabled plugin is skipped. -/
theorem emitLoop_cons_disabled (state : PluginState Config) (event : PluginEvent)
    (p : PluginDefinition Config) (rest : List (PluginDefinition Config))
    (acc : EmitAcc Config) (h : enabledOf state p = false) :
    emitLoop state event (p :: rest) acc = emitLoop state event rest acc := by
  simp [emitLoop, h]

/-- Dispatch-loop step: an enabled non-blocking plugin is fired and
forgotten - only the `onInsight` channel, the invocation trace and the
`resolveConfig` side effects change. -/
theorem emitLoop_cons_nonblocking (state : PluginState Config) (event : PluginEvent)
    (p : PluginDefinition Config) (rest : List (PluginDefinition Config))
    (acc : EmitAcc Config) (h1 : enabledOf state p = true) (h2 : p.blocking = false) :
    emitLoop state event (p :: rest) acc = emitLoop state event rest
      { acc with
          warned := (resolveConfig p (alookup p.id state.config) true acc.warned).warned
          persists := acc.persists ++ (resolveConfig p (alookup p.id state.config) true acc.warned).persists
          invoked := acc.invoked ++ [p.id]
          onInsightCalls := acc.onInsightCalls
            ++ nonBlockingInsights p event (resolveConfig p (alookup p.id state.config) true acc.warned).config } := by
  simp [emitLoop, h1, h2]

/-- Dispatch-loop step: an enabled blocking plugin that fails under the
`abort_current_action` fail policy ends the loop with the aborted flag. -/
theorem emitLoop_cons_error_abort (state : PluginState Config) (event : PluginEvent)
    (p : PluginDefinition Config) (rest : List (PluginDefinition Config))
    (acc : EmitAcc Config) (e : String)
    (h1 : enabledOf state p = true) (h2 : p.blocking = true)
    (h3 : p.onEvent event (resolveConfig p (alookup p.id state.config) true acc.warned).config = RunOutcome.error e)
    (h4 : p.failPolicy.getD "continue" = "abort_current_action") :
    emitLoop state event (p :: rest) acc =
      { acc with
          warned := (resolveConfig p (alookup p.id state.config) true acc.warned).warned
          persists := acc.persists ++ (resolveConfig p (alookup p.id state.config) true acc.warned).persists
          invoked := acc.invoked ++ [p.id]
          insights := acc.insights ++ [toPluginErrorInsight p.id event e]
          aborted := true } := by
  simp [emitLoop, h1, h2, h3, h4]

/-- Dispatch-loop step: an enabled blocking plugin that fails under the
`continue` fail policy records an error insight and the loop goes on. -/
theorem emitLoop_cons_error_cont (state : PluginState Config) (event : PluginEvent)
    (p : PluginDefinition Config) (rest : List (PluginDefinition Config))
    (acc : EmitAcc Config) (e : String)
    (h1 : enabledOf state p = true) (h2 : p.blocking = true)
    (h3 : p.onEvent event (resolveConfig p (alookup p.id state.config) true acc.warned).config = RunOutcome.error e)
    (h4 : p.failPolicy.getD "continue" ≠ "abort_current_action") :
    emitLoop state event (p :: rest) acc = emitLoop state event rest
      { acc with
          warned := (resolveConfig p (alookup p.id state.config) true acc.warned).warned
          persists := acc.persists ++ (resolveConfig p (alookup p.id state.config) true acc.warned).persists
          invoked := acc.invoked ++ [p.id]
          insights := acc.insights ++ [toPluginErrorInsight p.id event e] } := by
  simp [emitLoop, h1, h2, h3, h4]

/-- Dispatch-loop step: an enabled blocking plugin returning `undefined`
contributes nothing. -/
theorem emitLoop_cons_ok_none (state : PluginState Config) (event : PluginEvent)
    (p : PluginDefinition Config) (rest : List (PluginDefinition Config))
    (acc : EmitAcc Config)
    (h1 : enabledOf state p = true) (h2 : p.blocking = true)
    (h3 : p.onEvent event (resolveConfig p (alookup p.id state.config) true acc.warned).config = RunOutcome.ok none) :
    emitLoop state event (p :: rest) acc = emitLoop state event rest
      { acc with
          warned := (resolveConfig p (alookup p.id state.config) true acc.warned).warned
          persists := acc.persists ++ (resolveConfig p (alookup p.id state.config) true acc.warned).persists
          invoked := acc.invoked ++ [p.id] } := by
  simp [emitLoop, h1, h2, h3]

/-- Dispatch-loop step: an enabled blocking plugin returning a result has its
insights appended and its permission decision kept when none was kept yet. -/
theorem emitLoop_cons_ok_some (state : PluginState Config) (event : PluginEvent)
    (p : PluginDefinition Config) (rest : List (PluginDefinition Config))
    (acc : EmitAcc Config) (r : PluginEventResult)
    (h1 : enabledOf state p = true) (h2 : p.blocking = true)
    (h3 : p.onEvent event (resolveConfig p (alookup p.id state.config) true acc.warned).config = RunOutcome.ok (some r)) :
    emitLoop state event (p :: rest) acc = emitLoop state event rest
      { acc with
          warned := (resolveConfig p (alookup p.id state.config) true acc.warned).warned
          persists := acc.persists ++ (resolveConfig p (alookup p.id state.config) true acc.warned).persists
          invoked := acc.invoked ++ [p.id]
          insights := acc.insights ++ r.insights
          permissionDecision := keepFirst acc.permissionDecision r.permissionDecision } := by
  simp [emitLoop, h1, h2, h3]

end Companion.Plugins

namespace Companion.Plugins

/-- Insights only accumulate: whatever the loop does, the insights already
collected stay as a prefix of the final list. -/
theorem emitLoop_insights_mono (state : PluginState Config) (event : PluginEvent) :
    ∀ (l : List (PluginDefinition Config)) (acc : EmitAcc Config),
      ∃ t, (emitLoop state event l acc).insights = acc.insights ++ t := by
  intro l
  induction l with
  | nil => intro acc; exact ⟨[], by simp [emitLoop]⟩
  | cons p rest ih =>
    intro acc
    cases h1 : enabledOf state p with
    | false =>
      rw [emitLoop_cons_disabled state event p rest acc h1]
      exact ih acc
    | true =>
      cases h2 : p.blocking with
      | false =>
        rw [emitLoop_cons_nonblocking state event p rest acc h1 h2]
        exact ih _
      | true =>
        cases h3 : p.onEvent event (resolveConfig p (alookup p.id state.config) true acc.warned).config with
        | ok r =>
          cases r with
          | none =>
            rw [emitLoop_cons_ok_none state event p rest acc h1 h2 h3]
            exact ih _
          | some r0 =>
            rw [emitLoop_cons_ok_some state event p rest acc r0 h1 h2 h3]
            obtain ⟨t, ht⟩ := ih { acc with
              warned := (resolveConfig p (alookup p.id state.config) true acc.warned).warned
              persists := acc.persists ++ (resolveConfig p (alookup p.id state.config) true acc.warned).persists
              invoked := acc.invoked ++ [p.id]
              insights := acc.insights ++ r0.insights
              permissionDecision := keepFirst acc.permissionDecision r0.permissionDecision }
            exact ⟨r0.insights ++ t, by rw [ht]; simp⟩
        | error e =>
          by_cases h4 : p.failPolicy.getD "continue" = "abort_current_action"
          · rw [emitLoop_cons_error_abort state event p rest acc e h1 h2 h3 h4]
            exact ⟨[toPluginErrorInsight p.id event e], rfl⟩
          · rw [emitLoop_cons_error_cont state event p rest acc e h1 h2 h3 h4]
            obtain ⟨t, ht⟩ := ih { acc with
              warned := (resolveConfig p (alookup p.id state.config) true acc.warned).warned
              persists := acc.persists ++ (resolveConfig p (alookup p.id state.config) true acc.warned).persists
              invoked := acc.invoked ++ [p.id]
              insights := acc.insights ++ [toPluginErrorInsight p.id event e] }
            exact ⟨[toPluginErrorInsight p.id event e] ++ t, by rw [ht]; simp⟩

/-- `keepFirst a none = a`. -/
theorem keepFirst_none_right (a : Option PermissionAutomationDecision) :
    keepFirst a none = a := by
  cases a <;> rfl

/-- An already-kept decision stays kept. -/
theorem keepFirst_some_left (d : PermissionAutomationDecision)
    (b : Option PermissionAutomationDecision) : keepFirst (some d) b = some d := rfl

/-- Keeping the first decision is associative. -/
theorem keepFirst_assoc (a b c : Option PermissionAutomationDecision) :
    keepFirst (keepFirst a b) c = keepFirst a (keepFirst b c) := by
  cases a <;> cases b <;> rfl

/-- A plugin that is disabled or non-blocking contributes no entry to the
decision list. -/
theorem decisionsList_cons_excluded (state : PluginState Config) (event : PluginEvent)
    (p : PluginDefinition Config) (rest : List (PluginDefinition Config))
    (h : (enabledOf state p && p.blocking) = false) :
    decisionsList state event (p :: rest) = decisionsList state event rest := by
  simp [decisionsList, List.filter_cons, h]

/-- An enabled blocking plugin without a decision contributes no entry. -/
theorem decisionsList_cons_none (state : PluginState Config) (event : PluginEvent)
    (p : PluginDefinition Config) (rest : List (PluginDefinition Config))
    (h : (enabledOf state p && p.blocking) = true)
    (hd : blockingDecision state event p = none) :
    decisionsList state event (p :: rest) = decisionsList state event rest := by
  simp [decisionsList, List.filter_cons, h, List.filterMap_cons, hd]

/-- An enabled blocking plugin with a decision contributes it in front. -/
theorem decisionsList_cons_some (state : PluginState Config) (event : PluginEvent)
    (p : PluginDefinition Config) (rest : List (PluginDefinition Config))
    (d : PermissionAutomationDecision)
    (h : (enabledOf state p && p.blocking) = true)
    (hd : blockingDecision state event p = some d) :
    decisionsList state event (p :: rest) = d :: decisionsList state event rest := by
  simp [decisionsList, List.filter_cons, h, List.filterMap_cons, hd]

/-- When no enabled blocking plugin of the list aborts, the decision the
loop ends with is the decision it started with, or failing that the first
decision of the list's enabled blocking plugins in order. -/
theorem emitLoop_decision (state : PluginState Config) (event : PluginEvent) :
    ∀ (l : List (PluginDefinition Config)), NoAbortRun state event l →
      ∀ acc : EmitAcc Config,
        (emitLoop state event l acc).permissionDecision =
          keepFirst acc.permissionDecision (decisionsList state event l).head? := by
  intro l
  induction l with
  | nil =>
    intro _ acc
    simp [emitLoop, decisionsList, keepFirst_none_right]
  | cons p rest ih =>
    intro H acc
    have Hrest : NoAbortRun state event rest := by
      intro q hq
      exact H q (List.mem_cons_of_mem p hq)
    cases h1 : enabledOf state p with
    | false =>
      rw [emitLoop_cons_disabled state event p rest acc h1,
          decisionsList_cons_excluded state event p rest (by simp [h1])]
      exact ih Hrest acc
    | true =>
      cases h2 : p.blocking with
      | false =>
        rw [emitLoop_cons_nonblocking state event p rest acc h1 h2,
            decisionsList_cons_excluded state event p rest (by simp [h2])]
        exact ih Hrest _
      | true =>
        have hcfg : (resolveConfig p (alookup p.id state.config) true acc.warned).config
            = (resolveConfig p (alookup p.id state.config) true []).config :=
          resolveConfig_config_eq p (alookup p.id state.config) true acc.warned []
        cases h3 : p.onEvent event (resolveConfig p (alookup p.id state.config) true acc.warned).config with
        | error e =>
          have h3z : p.onEvent event (resolveConfig p (alookup p.id state.config) true []).config
              = RunOutcome.error e := by rw [← hcfg]; exact h3
          have h4 : p.failPolicy.getD "continue" ≠ "abort_current_action" := by
            intro h4
            exact H p (List.mem_cons_self p rest) h1 h2 h4 e h3z
          rw [emitLoop_cons_error_cont state event p rest acc e h1 h2 h3 h4,
              decisionsList_cons_none state event p rest (by simp [h1, h2])
                (by simp [blockingDecision, h3z])]
          exact ih Hrest _
        | ok r =>
          cases r with
          | none =>
            have h3z : p.onEvent event (resolveConfig p (alookup p.id state.config) true []).config
                = RunOutcome.ok none := by rw [← hcfg]; exact h3
            rw [emitLoop_cons_ok_none state event p rest acc h1 h2 h3,
                decisionsList_cons_none state event p rest (by simp [h1, h2])
                  (by simp [blockingDecision, h3z])]
            exact ih Hrest _
          | some r0 =>
            have h3z : p.onEvent event (resolveConfig p (alookup p.id state.config) true []).config
                = RunOutcome.ok (some r0) := by rw [← hcfg]; exact h3
            rw [emitLoop_cons_ok_some state event p rest acc r0 h1 h2 h3]
            rw [ih Hrest _]
            cases hr : r0.permissionDecision with
            | none =>
              rw [decisionsList_cons_none state event p rest (by simp [h1, h2])
                    (by simp [blockingDecision, h3z, hr])]
              simp [hr, keepFirst_none_right]
            | some d =>
              rw [decisionsList_cons_some state event p rest d (by simp [h1, h2])
                    (by simp [blockingDecision, h3z, hr])]
              simp only [List.head?_cons, hr]
              rw [keepFirst_assoc]
              rfl

end Companion.Plugins

namespace Companion.Plugins

/-- The `EmitResult` part of the loop (insights, permission decision,
aborted flag) is determined by the blocking candidates alone: starting two
loops from accumulators that agree on the result components, one over the
full candidate list and one over its blocking members only, yields the same
result. -/
theorem emitLoop_result_blocking (state : PluginState Config) (event : PluginEvent) :
    ∀ (l : List (PluginDefinition Config)) (acc1 acc2 : EmitAcc Config),
      acc1.insights = acc2.insights →
      acc1.permissionDecision = acc2.permissionDecision →
      acc1.aborted = acc2.aborted →
      (emitLoop state event l acc1).result =
        (emitLoop state event (l.filter (fun p => p.blocking)) acc2).result := by
  intro l
  induction l with
  | nil =>
    intro acc1 acc2 hi hd ha
    simp [emitLoop, EmitAcc.result, hi, hd, ha]
  | cons p rest ih =>
    intro acc1 acc2 hi hd ha
    cases h2 : p.blocking with
    | false =>
      have hf : (p :: rest).filter (fun p => p.blocking) = rest.filter (fun p => p.blocking) := by
        simp [List.filter_cons, h2]
      rw [hf]
      cases h1 : enabledOf state p with
      | false =>
        rw [emitLoop_cons_disabled state event p rest acc1 h1]
        exact ih acc1 acc2 hi hd ha
      | true =>
        rw [emitLoop_cons_nonblocking state event p rest acc1 h1 h2]
        exact ih _ acc2 hi hd ha
    | true =>
      have hf : (p :: rest).filter (fun p => p.blocking) = p :: rest.filter (fun p => p.blocking) := by
        simp [List.filter_cons, h2]
      rw [hf]
      cases h1 : enabledOf state p with
      | false =>
        rw [emitLoop_cons_disabled state event p rest acc1 h1,
            emitLoop_cons_disabled state event p (rest.filter (fun p => p.blocking)) acc2 h1]
        exact ih acc1 acc2 hi hd ha
      | true =>
        have hcfg : (resolveConfig p (alookup p.id state.config) true acc1.warned).config
            = (resolveConfig p (alookup p.id state.config) true acc2.warned).config :=
          resolveConfig_config_eq p (alookup p.id state.config) true acc1.warned acc2.warned
        cases h3 : p.onEvent event (resolveConfig p (alookup p.id state.config) true acc1.warned).config with
        | error e =>
          have h3b : p.onEvent event (resolveConfig p (alookup p.id state.config) true acc2.warned).config
              = RunOutcome.error e := by rw [← hcfg]; exact h3
          by_cases h4 : p.failPolicy.getD "continue" = "abort_current_action"
          · rw [emitLoop_cons_error_abort state event p rest acc1 e h1 h2 h3 h4,
                emitLoop_cons_error_abort state event p (rest.filter (fun p => p.blocking)) acc2 e h1 h2 h3b h4]
            simp [EmitAcc.result, hi, hd]
          · rw [emitLoop_cons_error_cont state event p rest acc1 e h1 h2 h3 h4,
                emitLoop_cons_error_cont state event p (rest.filter (fun p => p.blocking)) acc2 e h1 h2 h3b h4]
            exact ih _ _ (by simp [hi]) (by simp [hd]) (by simp [ha])
        | ok r =>
          cases r with
          | none =>
            have h3b : p.onEvent event (resolveConfig p (alookup p.id state.config) true acc2.warned).config
                = RunOutcome.ok none := by rw [← hcfg]; exact h3
            rw [emitLoop_cons_ok_none state event p rest acc1 h1 h2 h3,
                emitLoop_cons_ok_none state event p (rest.filter (fun p => p.blocking)) acc2 h1 h2 h3b]
            exact ih _ _ (by simp [hi]) (by simp [hd]) (by simp [ha])
          | some r0 =>
            have h3b : p.onEvent event (resolveConfig p (alookup p.id state.config) true acc2.warned).config
                = RunOutcome.ok (some r0) := by rw [← hcfg]; exact h3
            rw [emitLoop_cons_ok_some state event p rest acc1 r0 h1 h2 h3,
                emitLoop_cons_ok_some state event p (rest.filter (fun p => p.blocking)) acc2 r0 h1 h2 h3b]
            exact ih _ _ (by simp [hi]) (by simp [hd]) (by simp [ha])

end Companion.Plugins

namespace Companion.Plugins

/-- Once a plugin id is in the warned set, `resolveConfig` emits no warning
naming it and keeps it in the set. -/
theorem resolveConfig_warn_of_mem (p : PluginDefinition Config) (sc : Option Config)
    (b : Bool) (warned : List String) (id : String) (h : id ∈ warned) :
    (resolveConfig p sc b warned).warnings.count id = 0
    ∧ id ∈ (resolveConfig p sc b warned).warned := by
  cases hval : p.validateConfig with
  | none => simp [resolveConfig, hval, h]
  | some validate =>
    cases hres : validate (sc.getD p.defaultConfig) with
    | ok cfg => simp [resolveConfig, hval, hres, h]
    | error msg =>
      by_cases hm : p.id ∈ warned
      · simp [resolveConfig, hval, hres, hm, h]
      · have hne : p.id ≠ id := by
          intro hcontra
          exact hm (hcontra ▸ h)
        simp [resolveConfig, hval, hres, hm, h, List.count_cons, hne]

/-- A single `resolveConfig` call emits no warning for an id, or exactly one
and the id lands in the warned set. -/
theorem resolveConfig_warn_le (p : PluginDefinition Config) (sc : Option Config)
    (b : Bool) (warned : List String) (id : String) :
    (resolveConfig p sc b warned).warnings.count id = 0
    ∨ ((resolveConfig p sc b warned).warnings.count id = 1
        ∧ id ∈ (resolveConfig p sc b warned).warned) := by
  cases hval : p.validateConfig with
  | none => left; simp [resolveConfig, hval]
  | some validate =>
    cases hres : validate (sc.getD p.defaultConfig) with
    | ok cfg => left; simp [resolveConfig, hval, hres]
    | error msg =>
      by_cases hm : p.id ∈ warned
      · left; simp [resolveConfig, hval, hres, hm]
      · by_cases hid : p.id = id
        · right
          subst hid
          simp [resolveConfig, hval, hres, hm, List.count_cons]
        · left
          simp [resolveConfig, hval, hres, hm, List.count_cons, hid]

/-- No warning is ever emitted for an id already in the warned set. -/
theorem resolveConfigRun_count_zero :
    ∀ (calls : List (ResolveCall Config)) (warned : List String) (id : String),
      id ∈ warned → (resolveConfigRun calls warned).2.count id = 0 := by
  intro calls
  induction calls with
  | nil => intro warned id _; simp [resolveConfigRun]
  | cons c rest ih =>
    intro warned id h
    obtain ⟨h0, hmem⟩ :=
      resolveConfig_warn_of_mem c.plugin c.stateConfig c.persistDefaultOnInvalid warned id h
    simp only [resolveConfigRun, List.count_append]
    rw [h0, ih _ id hmem]

/-- Over any sequence of `resolveConfig` calls, at most one warning is
emitted per plugin id. -/
theorem resolveConfigRun_count_le_one :
    ∀ (calls : List (ResolveCall Config)) (warned : List String) (id : String),
      (resolveConfigRun calls warned).2.count id ≤ 1 := by
  intro calls
  induction calls with
  | nil => intro warned id; simp [resolveConfigRun]
  | cons c rest ih =>
    intro warned id
    simp only [resolveConfigRun, List.count_append]
    rcases resolveConfig_warn_le c.plugin c.stateConfig c.persistDefaultOnInvalid warned id with
      h0 | ⟨h1, hmem⟩
    · rw [h0]
      simpa using ih _ id
    · rw [h1, resolveConfigRun_count_zero rest _ id hmem]

end Companion.Plugins


/-- C1: the claim says every plugin result is filtered through capability
grants before surfacing - a plugin producing a `permissionDecision` without
the `permission:auto-decide` grant has the decision suppressed and a
"Capability blocked" insight surfaced instead. On the code under src/ this
fails: `PluginManager.emit` never consults capabilities or grants, so the
gated plugin of manager.test.ts (grant denied in the persisted state) still
has its decision surfaced, and no "Capability blocked" insight is produced
anywhere (result insights and the onInsight channel both stay empty). -/
theorem claim_C1_capability_gate_missing :
    (Companion.Plugins.emit [Companion.Fixtures.gatedPlugin]
        Companion.Fixtures.gatedState Companion.Fixtures.permissionEvent).permissionDecision
      = some Companion.Fixtures.gatedDecision
    ∧ (Companion.Plugins.emit [Companion.Fixtures.gatedPlugin]
        Companion.Fixtures.gatedState Companion.Fixtures.permissionEvent).insights = []
    ∧ (Companion.Plugins.emit [Companion.Fixtures.gatedPlugin]
        Companion.Fixtures.gatedState Companion.Fixtures.permissionEvent).onInsightCalls = [] := by
  decide

/-- C3: the claim says the invoked plugins are exactly the enabled plugins
whose subscriptions match the event name or contain the `*` wildcard. On the
code under src/ this fails for the wildcard half: the candidate filter is
`plugin.events.includes(event.name)`, so the wildcard subscriber of
manager.test.ts (events `["*"]`, enabled, blocking) is never invoked on
`user.message.before_send` and contributes nothing. -/
theorem claim_C3_wildcard_not_dispatched :
    Companion.Plugins.matchesEvent Companion.Fixtures.globalPlugin "user.message.before_send" = false
    ∧ (Companion.Plugins.emit [Companion.Fixtures.globalPlugin]
        Companion.Fixtures.emptyState Companion.Fixtures.beforeSendEvent).invoked = []
    ∧ (Companion.Plugins.emit [Companion.Fixtures.globalPlugin]
        Companion.Fixtures.emptyState Companion.Fixtures.beforeSendEvent).insights = []
    ∧ (Companion.Plugins.emit [Companion.Fixtures.globalPlugin]
        Companion.Fixtures.emptyState Companion.Fixtures.beforeSendEvent).onInsightCalls = [] := by
  decide

/-- C2: provided no enabled blocking plugin in the dispatch list both fails
and carries the `abort_current_action` policy (so dispatch is not cut
short), the emit result's permission decision is exactly the first decision
returned by an enabled blocking plugin in dispatch order (later ones are
discarded, since only the head of the decision list survives); the whole
emit result (insights, decision, aborted flag) is determined by the blocking
candidates alone; and an enabled non-blocking plugin's step changes none of
the result components - its successful results surface only insights,
through the onInsight callback. -/
theorem claim_C2_first_decision_wins {Config : Type}
    (defs : List (Companion.Plugins.PluginDefinition Config))
    (state : Companion.Plugins.PluginState Config)
    (event : Companion.Plugins.PluginEvent)
    (H : Companion.Plugins.NoAbortRun state event
          (Companion.Plugins.dispatchList defs event.name)) :
    (Companion.Plugins.emit defs state event).permissionDecision
      = (Companion.Plugins.decisionsList state event
          (Companion.Plugins.dispatchList defs event.name)).head?
    ∧ (Companion.Plugins.emit defs state event).result
      = (Companion.Plugins.emitLoop state event
          ((Companion.Plugins.dispatchList defs event.name).filter (fun p => p.blocking))
          {}).result
    ∧ (∀ (p : Companion.Plugins.PluginDefinition Config)
         (rest : List (Companion.Plugins.PluginDefinition Config))
         (acc : Companion.Plugins.EmitAcc Config),
        p.blocking = false → Companion.Plugins.enabledOf state p = true →
        ∃ acc', Companion.Plugins.emitLoop state event (p :: rest) acc
            = Companion.Plugins.emitLoop state event rest acc'
          ∧ acc'.insights = acc.insights
          ∧ acc'.permissionDecision = acc.permissionDecision
          ∧ acc'.aborted = acc.aborted
          ∧ acc'.onInsightCalls = acc.onInsightCalls
              ++ Companion.Plugins.nonBlockingInsights p event
                  (Companion.Plugins.resolveConfig p
                    (Companion.Plugins.alookup p.id state.config) true acc.warned).config) := by
  refine ⟨?_, ?_, ?_⟩
  · have h := Companion.Plugins.emitLoop_decision state event
      (Companion.Plugins.dispatchList defs event.name) H {}
    simpa [Companion.Plugins.emit, Companion.Plugins.keepFirst] using h
  · exact Companion.Plugins.emitLoop_result_blocking state event
      (Companion.Plugins.dispatchList defs event.name) {} {} rfl rfl rfl
  · intro p rest acc hb hen
    exact ⟨_, Companion.Plugins.emitLoop_cons_nonblocking state event p rest acc hen hb,
      rfl, rfl, rfl, rfl⟩

/-- C2 witness: in the three-plugin scenario (blocking high-priority and
low-priority deciders plus a non-blocking decider), the emit decision is the
high-priority plugin's decision. -/
theorem claim_C2_first_decision_wins_witness :
    (Companion.Plugins.emit Companion.Fixtures.c2Defs Companion.Fixtures.emptyState
        Companion.Fixtures.permissionEvent).permissionDecision
      = some Companion.Fixtures.decisionHigh := by
  have hd : Companion.Plugins.dispatchList Companion.Fixtures.c2Defs
      Companion.Fixtures.permissionEvent.name
      = [Companion.Fixtures.highPlugin, Companion.Fixtures.asyncPlugin,
         Companion.Fixtures.lowPlugin] := rfl
  have H : Companion.Plugins.NoAbortRun Companion.Fixtures.emptyState
      Companion.Fixtures.permissionEvent
      (Companion.Plugins.dispatchList Companion.Fixtures.c2Defs
        Companion.Fixtures.permissionEvent.name) := by
    rw [hd]
    intro p hp h1 h2 h3 e hcontra
    fin_cases hp <;>
      simp [Companion.Fixtures.highPlugin, Companion.Fixtures.asyncPlugin,
        Companion.Fixtures.lowPlugin] at hcontra
  have h := (claim_C2_first_decision_wins Companion.Fixtures.c2Defs
    Companion.Fixtures.emptyState Companion.Fixtures.permissionEvent H).1
  rw [h]
  decide

/-- C4: whenever an enabled blocking plugin's invocation fails (exception,
rejection or timeout, all surfacing as an error outcome of the timed run),
the synthesized error insight naming the plugin ends up in the emit result's
insights; with fail policy `abort_current_action` the loop stops - the
result is marked aborted and no further plugin is invoked; with any other
(or absent) fail policy, dispatch continues with the remaining plugins from
an accumulator that only gained the error insight and the invocation
record. -/
theorem claim_C4_blocking_failure_contained {Config : Type}
    (state : Companion.Plugins.PluginState Config)
    (event : Companion.Plugins.PluginEvent)
    (p : Companion.Plugins.PluginDefinition Config)
    (rest : List (Companion.Plugins.PluginDefinition Config))
    (acc : Companion.Plugins.EmitAcc Config) (e : String)
    (hen : Companion.Plugins.enabledOf state p = true)
    (hb : p.blocking = true)
    (herr : p.onEvent event (Companion.Plugins.resolveConfig p
        (Companion.Plugins.alookup p.id state.config) true acc.warned).config
      = Companion.Plugins.RunOutcome.error e) :
    Companion.Plugins.toPluginErrorInsight p.id event e
        ∈ (Companion.Plugins.emitLoop state event (p :: rest) acc).insights
    ∧ (p.failPolicy.getD "continue" = "abort_current_action" →
        (Companion.Plugins.emitLoop state event (p :: rest) acc).aborted = true
        ∧ (Companion.Plugins.emitLoop state event (p :: rest) acc).invoked
            = acc.invoked ++ [p.id])
    ∧ (p.failPolicy.getD "continue" ≠ "abort_current_action" →
        ∃ acc', Companion.Plugins.emitLoop state event (p :: rest) acc
            = Companion.Plugins.emitLoop state event rest acc'
          ∧ acc'.insights = acc.insights ++ [Companion.Plugins.toPluginErrorInsight p.id event e]
          ∧ acc'.invoked = acc.invoked ++ [p.id]
          ∧ acc'.aborted = acc.aborted) := by
  by_cases h4 : p.failPolicy.getD "continue" = "abort_current_action"
  · rw [Companion.Plugins.emitLoop_cons_error_abort state event p rest acc e hen hb herr h4]
    refine ⟨by simp, fun _ => ⟨rfl, rfl⟩, fun hne => absurd h4 hne⟩
  · rw [Companion.Plugins.emitLoop_cons_error_cont state event p rest acc e hen hb herr h4]
    refine ⟨?_, fun habs => absurd habs h4, fun _ => ⟨_, rfl, rfl, rfl, rfl⟩⟩
    obtain ⟨t, ht⟩ := Companion.Plugins.emitLoop_insights_mono state event rest
      { acc with
          warned := (Companion.Plugins.resolveConfig p
            (Companion.Plugins.alookup p.id state.config) true acc.warned).warned
          persists := acc.persists ++ (Companion.Plugins.resolveConfig p
            (Companion.Plugins.alookup p.id state.config) true acc.warned).persists
          invoked := acc.invoked ++ [p.id]
          insights := acc.insights ++ [Companion.Plugins.toPluginErrorInsight p.id event e] }
    rw [ht]
    simp

/-- C4 witness: the failing blocking plugin with the default policy leaves
its error insight in the loop result. -/
theorem claim_C4_blocking_failure_contained_witness :
    Companion.Plugins.toPluginErrorInsight "failing-plugin"
        Companion.Fixtures.sessionCreatedEvent "boom"
      ∈ (Companion.Plugins.emitLoop Companion.Fixtures.emptyState
          Companion.Fixtures.sessionCreatedEvent [Companion.Fixtures.failingPlugin]
          {}).insights :=
  (claim_C4_blocking_failure_contained Companion.Fixtures.emptyState
    Companion.Fixtures.sessionCreatedEvent Companion.Fixtures.failingPlugin [] {} "boom"
    rfl rfl rfl).1

/-- C8: a persisted config rejected by the plugin's validator resolves to
the plugin's `defaultConfig`; the default is persisted back into the state
store in place of the invalid value; the warning is emitted exactly when the
plugin has not been warned about yet; and over any sequence of
`resolveConfig` calls starting from a fresh manager, at most one warning is
emitted per plugin id. -/
theorem claim_C8_invalid_config_fallback {Config : Type}
    (p : Companion.Plugins.PluginDefinition Config)
    (v : Config → Except String Config) (c : Config) (e : String)
    (warned : List String)
    (hv : p.validateConfig = some v) (hc : v c = Except.error e) :
    (Companion.Plugins.resolveConfig p (some c) true warned).config = p.defaultConfig
    ∧ (Companion.Plugins.resolveConfig p (some c) true warned).persists
        = [(p.id, p.defaultConfig)]
    ∧ (p.id ∉ warned →
        (Companion.Plugins.resolveConfig p (some c) true warned).warnings = [p.id])
    ∧ (p.id ∈ warned →
        (Companion.Plugins.resolveConfig p (some c) true warned).warnings = [])
    ∧ (∀ (calls : List (Companion.Plugins.ResolveCall Config)) (id : String),
        (Companion.Plugins.resolveConfigRun calls []).2.count id ≤ 1) := by
  refine ⟨?_, ?_, ?_, ?_, fun calls id => Companion.Plugins.resolveConfigRun_count_le_one calls [] id⟩
  · simp [Companion.Plugins.resolveConfig, hv, hc]
  · simp [Companion.Plugins.resolveConfig, hv, hc]
  · intro hm; simp [Companion.Plugins.resolveConfig, hv, hc, hm]
  · intro hm; simp [Companion.Plugins.resolveConfig, hv, hc, hm]

/-- C8 witness: the strict plugin with persisted config `bad` resolves to
its default `ok`, persists the default, warns once, and two identical calls
in a row still warn only once. -/
theorem claim_C8_invalid_config_fallback_witness :
    (Companion.Plugins.resolveConfig Companion.Fixtures.strictPlugin (some "bad") true []).config = "ok"
    ∧ (Companion.Plugins.resolveConfig Companion.Fixtures.strictPlugin (some "bad") true []).persists
        = [("strict-plugin", "ok")]
    ∧ (Companion.Plugins.resolveConfigRun
        [Companion.Fixtures.strictCall, Companion.Fixtures.strictCall] []).2.count "strict-plugin" ≤ 1 := by
  have h := claim_C8_invalid_config_fallback Companion.Fixtures.strictPlugin
    Companion.Fixtures.strictValidate "bad" "invalid config" [] rfl rfl
  exact ⟨h.1, h.2.1, h.2.2.2.2 [Companion.Fixtures.strictCall, Companion.Fixtures.strictCall] "strict-plugin"⟩

namespace Companion.Worktree

/-- A branch scheduled for deletion is the mapping's `actualBranch` and
differs from the requested branch. -/
theorem branchToDeleteOf_some (m : WorktreeMapping) (b : String)
    (h : branchToDeleteOf m = some b) :
    m.actualBranch = some b ∧ b ≠ m.branch := by
  cases hab : m.actualBranch with
  | none => simp [branchToDeleteOf, hab] at h
  | some a =>
    simp only [branchToDeleteOf, hab] at h
    by_cases hcond : (a != "" && a != m.branch) = true
    · rw [if_pos hcond] at h
      have hba : a = b := by simpa using h
      subst hba
      refine ⟨rfl, ?_⟩
      have h2 := ((Bool.and_eq_true _ _).mp hcond).2
      simpa using h2
    · rw [if_neg hcond] at h
      exact absurd h (by simp)

end Companion.Worktree

/-- C5: in the `running_init_script` step, a non-zero exit of the init
script is fatal - the partial container is removed, control never reaches
`launching_cli` (so no session is created), and the reported error carries
status 503 at step `running_init_script` with a message holding the script
output truncated to its first 500 plus last 1500 characters when the output
exceeds 2000 characters, and the full output otherwise. -/
theorem claim_C5_init_script_fatal (script : String)
    (res : Companion.Pipeline.ExecStreamingResult)
    (hs : Companion.Pipeline.jsTrim script ≠ "")
    (hexit : res.exitCode ≠ 0) :
    (Companion.Pipeline.runInitScriptStep (some script)
        (Companion.Pipeline.InitExec.result res)).containerRemoved = true
    ∧ (Companion.Pipeline.runInitScriptStep (some script)
        (Companion.Pipeline.InitExec.result res)).reachedLaunch = false
    ∧ ∃ msg,
        (Companion.Pipeline.runInitScriptStep (some script)
            (Companion.Pipeline.InitExec.result res)).errorReport
          = some (msg, 503, "running_init_script")
        ∧ (res.output.length > 2000 →
            msg = "Init script failed (exit " ++ toString res.exitCode ++ "):\n"
              ++ res.output.take 500 ++ "\n...[truncated]...\n" ++ res.output.takeRight 1500)
        ∧ (¬ res.output.length > 2000 →
            msg = "Init script failed (exit " ++ toString res.exitCode ++ "):\n" ++ res.output) := by
  have hstep : Companion.Pipeline.runInitScriptStep (some script)
      (Companion.Pipeline.InitExec.result res) =
      { containerRemoved := true
        errorReport := some ("Init script failed (exit " ++ toString res.exitCode ++ "):\n"
          ++ (if res.output.length > 2000 then
                res.output.take 500 ++ "\n...[truncated]...\n" ++ res.output.takeRight 1500
              else res.output), 503, "running_init_script")
        reachedLaunch := false } := by
    simp only [Companion.Pipeline.runInitScriptStep, if_neg hs, if_pos hexit]
  rw [hstep]
  refine ⟨rfl, rfl, _, rfl, ?_, ?_⟩
  · intro hlen
    rw [if_pos hlen]
    simp [String.append_assoc]
  · intro hlen
    rw [if_neg hlen]

/-- C5 witness: exit code 1 with a short output removes the container and
stops before the launch step. -/
theorem claim_C5_init_script_fatal_witness :
    (Companion.Pipeline.runInitScriptStep (some "echo hi")
        (Companion.Pipeline.InitExec.result { exitCode := 1, output := "boom" })).containerRemoved = true
    ∧ (Companion.Pipeline.runInitScriptStep (some "echo hi")
        (Companion.Pipeline.InitExec.result { exitCode := 1, output := "boom" })).reachedLaunch = false := by
  have h := claim_C5_init_script_fatal "echo hi" { exitCode := 1, output := "boom" }
    (by decide) (by decide)
  exact ⟨h.1, h.2.1⟩

/-- C10: `verifyToken` is total (it always returns a boolean, never an
exception, because the length guard precedes `timingSafeEqual`); it returns
false for a missing candidate, for the empty candidate, and for a candidate
whose byte length differs from the token's; and - for the nonempty tokens
`getToken` produces (env tokens are nonempty after trim, file tokens have at
least 32 characters, generated tokens are 64 hex characters) - it returns
true exactly when the candidate equals the token byte for byte. -/
theorem claim_C10_verifyToken_total (token : List Nat) (candidate : Option (List Nat)) :
    (∃ b, Companion.Auth.verifyToken candidate token = Except.ok b)
    ∧ Companion.Auth.verifyToken none token = Except.ok false
    ∧ Companion.Auth.verifyToken (some []) token = Except.ok false
    ∧ (∀ c, candidate = some c → c.length ≠ token.length →
        Companion.Auth.verifyToken candidate token = Except.ok false)
    ∧ (token ≠ [] →
        (Companion.Auth.verifyToken candidate token = Except.ok true ↔ candidate = some token)) := by
  refine ⟨?_, rfl, by simp [Companion.Auth.verifyToken], ?_, ?_⟩
  · cases candidate with
    | none => exact ⟨false, rfl⟩
    | some c =>
      by_cases h1 : c.isEmpty = true
      · exact ⟨false, by simp [Companion.Auth.verifyToken, h1]⟩
      · by_cases h2 : c.length = token.length
        · exact ⟨c == token,
            by simp [Companion.Auth.verifyToken, Companion.Auth.timingSafeEqual, h1, h2]⟩
        · exact ⟨false, by simp [Companion.Auth.verifyToken, h1, h2]⟩
  · intro c hc hl
    subst hc
    by_cases h1 : c.isEmpty = true
    · simp [Companion.Auth.verifyToken, h1]
    · simp [Companion.Auth.verifyToken, h1, hl]
  · intro ht
    constructor
    · intro h
      cases candidate with
      | none => exact absurd h (by simp [Companion.Auth.verifyToken])
      | some c =>
        by_cases h1 : c.isEmpty = true
        · simp [Companion.Auth.verifyToken, h1] at h
        · by_cases h2 : c.length = token.length
          · simp [Companion.Auth.verifyToken, Companion.Auth.timingSafeEqual, h1, h2] at h
            rw [h]
          · simp [Companion.Auth.verifyToken, h1, h2] at h
    · intro h
      subst h
      have h1 : token.isEmpty = false := by
        cases token with
        | nil => exact absurd rfl ht
        | cons a l => rfl
      simp [Companion.Auth.verifyToken, Companion.Auth.timingSafeEqual, h1]

/-- C10 witness: the candidate equal to the token verifies. -/
theorem claim_C10_verifyToken_total_witness :
    Companion.Auth.verifyToken (some [104, 105]) [104, 105] = Except.ok true :=
  ((claim_C10_verifyToken_total [104, 105] (some [104, 105])).2.2.2.2 (by decide)).mpr rfl

/-- C6 counterexample: with two sessions sharing one dirty worktree,
cleaning up session `s1` without `force` does NOT keep the mapping - the
in-use branch drops `s1`'s mapping before any dirtiness check and returns a
record without the `dirty` flag - refuting the claim's unconditional "a
dirty worktree without force is refused with a not-cleaned result while the
mapping is kept". -/
theorem claim_C6_cleanup_counterexample :
    (Companion.Worktree.cleanupWorktree Companion.Fixtures.sharedTracker
        (fun _ => true) "s1" false).tracker = [Companion.Fixtures.wtMappingS2]
    ∧ (Companion.Worktree.cleanupWorktree Companion.Fixtures.sharedTracker
        (fun _ => true) "s1" false).result
      = some { cleaned := some false, dirty := none, path := some "/wt" } := by
  decide

/-- C6 amended: on worktree cleanup for a session with a mapping, a branch
is deleted only when it is the mapping's `actualBranch` and differs from the
requested branch, and only within a successful worktree removal; and - when
no other session references the same worktree - a dirty worktree without
`force` is refused with a not-cleaned, dirty-flagged result while the
tracker (hence the mapping) is unchanged and no removal is attempted. -/
theorem claim_C6_amended_cleanup (tracker : List Companion.Worktree.WorktreeMapping)
    (dirtyOf : String → Bool) (sessionId : String) (force : Bool)
    (m : Companion.Worktree.WorktreeMapping)
    (hm : Companion.Worktree.getBySession tracker sessionId = some m) :
    (∀ r b, (Companion.Worktree.cleanupWorktree tracker dirtyOf sessionId force).removeCall = some r →
        r.deletedBranch = some b →
        m.actualBranch = some b ∧ b ≠ m.branch ∧ r.removed = true)
    ∧ (Companion.Worktree.isWorktreeInUse tracker m.worktreePath sessionId = false →
        dirtyOf m.worktreePath = true → force = false →
        Companion.Worktree.cleanupWorktree tracker dirtyOf sessionId force
          = { result := some { cleaned := some false, dirty := some true, path := some m.worktreePath }
              tracker := tracker }) := by
  by_cases hiu : Companion.Worktree.isWorktreeInUse tracker m.worktreePath sessionId = true
  · have hcall0 : (Companion.Worktree.cleanupWorktree tracker dirtyOf sessionId force).removeCall
        = none := by
      simp [Companion.Worktree.cleanupWorktree, hm, hiu]
    constructor
    · intro r b hr
      rw [hcall0] at hr
      exact absurd hr (by simp)
    · intro hiu2
      rw [hiu] at hiu2
      exact absurd hiu2 (by simp)
  · have hiu' : Companion.Worktree.isWorktreeInUse tracker m.worktreePath sessionId = false := by
      simpa using hiu
    by_cases hdf : (dirtyOf m.worktreePath && !force) = true
    · have hcall0 : (Companion.Worktree.cleanupWorktree tracker dirtyOf sessionId force).removeCall
          = none := by
        simp [Companion.Worktree.cleanupWorktree, hm, hiu', hdf]
      constructor
      · intro r b hr
        rw [hcall0] at hr
        exact absurd hr (by simp)
      · intro _ hd hf
        simp [Companion.Worktree.cleanupWorktree, hm, hiu', hdf]
    · have hcall : (Companion.Worktree.cleanupWorktree tracker dirtyOf sessionId force).removeCall
          = some (Companion.Worktree.removeWorktree (dirtyOf m.worktreePath)
              (dirtyOf m.worktreePath) (Companion.Worktree.branchToDeleteOf m)) := by
        simp [Companion.Worktree.cleanupWorktree, hm, hiu', hdf]
      have hrm : Companion.Worktree.removeWorktree (dirtyOf m.worktreePath)
          (dirtyOf m.worktreePath) (Companion.Worktree.branchToDeleteOf m)
          = { removed := true, deletedBranch := Companion.Worktree.branchToDeleteOf m } := by
        simp [Companion.Worktree.removeWorktree]
      constructor
      · intro r b hr hb
        have hsome := hcall.symm.trans hr
        have hXr := Option.some.inj hsome
        have hb' : Companion.Worktree.branchToDeleteOf m = some b := by
          rw [← hXr, hrm] at hb
          exact hb
        obtain ⟨h1, h2⟩ := Companion.Worktree.branchToDeleteOf_some m b hb'
        refine ⟨h1, h2, ?_⟩
        rw [← hXr, hrm]
      · intro _ hd hf
        rw [hd, hf] at hdf
        exact absurd (by decide) hdf

/-- C6 amended witness: a lone session with a dirty worktree and no `force`
is refused and the tracker is unchanged. -/
theorem claim_C6_amended_cleanup_witness :
    Companion.Worktree.cleanupWorktree Companion.Fixtures.soloTracker
        (fun _ => true) "s1" false
      = { result := some { cleaned := some false, dirty := some true, path := some "/wt" }
          tracker := Companion.Fixtures.soloTracker } :=
  (claim_C6_amended_cleanup Companion.Fixtures.soloTracker (fun _ => true)
    "s1" false Companion.Fixtures.wtMappingS1 (by decide)).2 (by decide) rfl rfl

namespace Companion.Linear

/-- `updateTeamFields` keeps the key, so updating the first match commutes
with looking it up. -/
theorem find?_upsertFirst (key : String) (d : TeamData) (now : Nat) :
    ∀ ms : List LinearProjectMapping,
      (upsertFirst key d now ms).find? (fun m => m.repoRoot == key)
        = (ms.find? (fun m => m.repoRoot == key)).map (updateTeamFields d now) := by
  intro ms
  induction ms with
  | nil => rfl
  | cons m rest ih =>
    by_cases h : (m.repoRoot == key) = true
    · rw [upsertFirst, if_pos h]
      have hupd : ((updateTeamFields d now m).repoRoot == key) = true := by
        simpa [updateTeamFields] using h
      simp only [List.find?_cons, hupd, h]
      rfl
    · rw [upsertFirst, if_neg h]
      have h' : (m.repoRoot == key) = false := by simpa using h
      simp only [List.find?_cons, h', ih]

/-- When nothing in the first list matches, searching the concatenation
searches the second list. -/
theorem find?_append_of_none {α : Type} (p : α → Bool) :
    ∀ (l1 l2 : List α), l1.find? p = none → (l1 ++ l2).find? p = l2.find? p := by
  intro l1
  induction l1 with
  | nil => intro l2 _; rfl
  | cons a t ih =>
    intro l2 h
    by_cases hpa : p a = true
    · rw [List.find?_cons_of_pos _ hpa] at h
      exact absurd h (by simp)
    · rw [List.find?_cons_of_neg _ hpa] at h
      rw [List.cons_append, List.find?_cons_of_neg _ hpa]
      exact ih l2 h

end Companion.Linear

/-- C7: after `upsertMapping(r, d)`, `getMapping(r')` returns a mapping
carrying exactly the team fields of `d` for every `r'` normalizing to the
same key as `r` (trailing slashes stripped); when the upsert updates an
existing mapping, `createdAt` and `repoRoot` are unchanged and only the team
fields and `updatedAt` change; and a corrupt or non-array
`linear-projects.json` loads as the empty mapping list. -/
theorem claim_C7_upsert_get_roundtrip (ms : List Companion.Linear.LinearProjectMapping)
    (r r' : String) (d : Companion.Linear.TeamData) (now : Nat) :
    (Companion.Linear.normalizeRoot r' = Companion.Linear.normalizeRoot r →
      ∃ m, Companion.Linear.getMapping (Companion.Linear.upsertMapping ms r d now) r' = some m
        ∧ m.teamId = d.teamId ∧ m.teamKey = d.teamKey ∧ m.teamName = d.teamName)
    ∧ (∀ old, Companion.Linear.getMapping ms r = some old →
      ∃ m, Companion.Linear.getMapping (Companion.Linear.upsertMapping ms r d now) r = some m
        ∧ m.createdAt = old.createdAt ∧ m.repoRoot = old.repoRoot
        ∧ m.teamId = d.teamId ∧ m.teamKey = d.teamKey ∧ m.teamName = d.teamName
        ∧ m.updatedAt = now)
    ∧ Companion.Linear.loadMappings Companion.Linear.LinearProjectsFile.corrupt = []
    ∧ Companion.Linear.loadMappings Companion.Linear.LinearProjectsFile.notArray = [] := by
  refine ⟨?_, ?_, rfl, rfl⟩
  · intro hnorm
    rw [Companion.Linear.getMapping, hnorm]
    cases hfind : ms.find? (fun m => m.repoRoot == Companion.Linear.normalizeRoot r) with
    | some m0 =>
      rw [show Companion.Linear.upsertMapping ms r d now
          = Companion.Linear.upsertFirst (Companion.Linear.normalizeRoot r) d now ms by
        simp [Companion.Linear.upsertMapping, hfind]]
      rw [Companion.Linear.find?_upsertFirst, hfind]
      exact ⟨Companion.Linear.updateTeamFields d now m0, rfl, rfl, rfl, rfl⟩
    | none =>
      rw [show Companion.Linear.upsertMapping ms r d now
          = ms ++ [{ repoRoot := Companion.Linear.normalizeRoot r, teamId := d.teamId,
                     teamKey := d.teamKey, teamName := d.teamName,
                     createdAt := now, updatedAt := now }] by
        simp [Companion.Linear.upsertMapping, hfind]]
      rw [Companion.Linear.find?_append_of_none _ ms _ hfind]
      rw [List.find?_cons_of_pos _ (by simp)]
      exact ⟨_, rfl, rfl, rfl, rfl⟩
  · intro old hold
    rw [Companion.Linear.getMapping] at hold
    rw [Companion.Linear.getMapping]
    rw [show Companion.Linear.upsertMapping ms r d now
        = Companion.Linear.upsertFirst (Companion.Linear.normalizeRoot r) d now ms by
      simp [Companion.Linear.upsertMapping, hold]]
    rw [Companion.Linear.find?_upsertFirst, hold]
    exact ⟨Companion.Linear.updateTeamFields d now old, rfl, rfl, rfl, rfl, rfl, rfl, rfl⟩

/-- C7 witness: upserting under `/a/b/` and reading back under `/a/b`
returns the stored team fields. -/
theorem claim_C7_upsert_get_roundtrip_witness :
    ∃ m, Companion.Linear.getMapping
        (Companion.Linear.upsertMapping [] "/a/b/"
          { teamId := "t1", teamKey := "ENG", teamName := "Engineering" } 5) "/a/b" = some m
      ∧ m.teamId = "t1" ∧ m.teamKey = "ENG" ∧ m.teamName = "Engineering" :=
  (claim_C7_upsert_get_roundtrip [] "/a/b/" "/a/b"
    { teamId := "t1", teamKey := "ENG", teamName := "Engineering" } 5).1 (by decide)

namespace Companion.Client

/-- Every replay entry actually handled had a seq strictly above the cursor
at its turn. -/
theorem handleEventReplay_handled_gt :
    ∀ (events : List (Nat × String)) (cursor : Nat),
      ∀ h ∈ (handleEventReplay cursor events).2, ∀ n, h.seq = some n → h.prevCursor < n := by
  intro events
  induction events with
  | nil =>
    intro cursor h hmem
    simp [handleEventReplay] at hmem
  | cons ev rest ih =>
    intro cursor h hmem n hseq
    obtain ⟨s, m⟩ := ev
    by_cases hle : s ≤ cursor
    · rw [show handleEventReplay cursor ((s, m) :: rest) = handleEventReplay cursor rest by
        simp [handleEventReplay, if_pos hle]] at hmem
      exact ih cursor h hmem n hseq
    · rw [show (handleEventReplay cursor ((s, m) :: rest)).2
          = ⟨cursor, some s, m⟩ :: (handleEventReplay s rest).2 by
        simp [handleEventReplay, if_neg hle]] at hmem
      rcases List.mem_cons.mp hmem with heq | hmem2
      · subst heq
        have hsn : s = n := by simpa using hseq
        subst hsn
        exact Nat.lt_of_not_le hle
      · exact ih s h hmem2 n hseq

/-- The replay loop never decreases the cursor. -/
theorem handleEventReplay_mono :
    ∀ (events : List (Nat × String)) (cursor : Nat),
      cursor ≤ (handleEventReplay cursor events).1 := by
  intro events
  induction events with
  | nil => intro cursor; simp [handleEventReplay]
  | cons ev rest ih =>
    intro cursor
    obtain ⟨s, m⟩ := ev
    by_cases hle : s ≤ cursor
    · simpa [handleEventReplay, if_pos hle] using ih cursor
    · rw [show (handleEventReplay cursor ((s, m) :: rest)).1 = (handleEventReplay s rest).1 by
        simp [handleEventReplay, if_neg hle]]
      exact le_trans (le_of_lt (Nat.lt_of_not_le hle)) (ih s)

/-- An empty replay leaves the cursor alone, and a non-empty replay ends
with the cursor set to the seq of the last handled entry. -/
theorem handleEventReplay_last :
    ∀ (events : List (Nat × String)) (cursor : Nat),
      ((handleEventReplay cursor events).2 = [] → (handleEventReplay cursor events).1 = cursor)
      ∧ (∀ h, (handleEventReplay cursor events).2.getLast? = some h →
          h.seq = some ((handleEventReplay cursor events).1)) := by
  intro events
  induction events with
  | nil =>
    intro cursor
    exact ⟨fun _ => rfl, fun h hlast => by simp [handleEventReplay] at hlast⟩
  | cons ev rest ih =>
    intro cursor
    obtain ⟨s, m⟩ := ev
    by_cases hle : s ≤ cursor
    · simpa [handleEventReplay, if_pos hle] using ih cursor
    · have h2 : (handleEventReplay cursor ((s, m) :: rest)).2
          = ⟨cursor, some s, m⟩ :: (handleEventReplay s rest).2 := by
        simp [handleEventReplay, if_neg hle]
      have h1 : (handleEventReplay cursor ((s, m) :: rest)).1 = (handleEventReplay s rest).1 := by
        simp [handleEventReplay, if_neg hle]
      constructor
      · intro hnil
        rw [h2] at hnil
        exact absurd hnil (List.cons_ne_nil _ _)
      · intro h hlast
        rw [h2] at hlast
        rw [h1]
        cases hr2 : (handleEventReplay s rest).2 with
        | nil =>
          rw [hr2] at hlast
          have hh : h = ⟨cursor, some s, m⟩ := by simpa using hlast.symm
          rw [(ih s).1 hr2, hh]
        | cons b t =>
          rw [hr2, List.getLast?_cons_cons] at hlast
          exact (ih s).2 h (by rw [hr2]; exact hlast)

/-- A single message never decreases the cursor. -/
theorem handleParsedMessage_mono (cursor : Nat) (msg : BrowserIncomingMessage) :
    cursor ≤ (handleParsedMessage cursor msg).1 := by
  cases msg with
  | plain seq payload =>
    cases seq with
    | none => simp [handleParsedMessage]
    | some n =>
      by_cases h : n ≤ cursor
      · simp [handleParsedMessage, if_pos h]
      · simp only [handleParsedMessage, if_neg h]
        exact le_of_lt (Nat.lt_of_not_le h)
  | eventReplay events => exact handleEventReplay_mono events cursor

/-- Every handled message carrying a seq had that seq strictly above the
cursor at handling time. -/
theorem handleParsedMessage_handled_gt (cursor : Nat) (msg : BrowserIncomingMessage) :
    ∀ h ∈ (handleParsedMessage cursor msg).2, ∀ n, h.seq = some n → h.prevCursor < n := by
  cases msg with
  | plain seq payload =>
    cases seq with
    | none =>
      intro h hmem n hseq
      rw [show (handleParsedMessage cursor (BrowserIncomingMessage.plain none payload)).2
          = [⟨cursor, none, payload⟩] from rfl] at hmem
      have hh : h = ⟨cursor, none, payload⟩ := by simpa using hmem
      subst hh
      exact absurd hseq (by simp)
    | some n0 =>
      intro h hmem n hseq
      by_cases hle : n0 ≤ cursor
      · rw [show (handleParsedMessage cursor (BrowserIncomingMessage.plain (some n0) payload)).2
            = [] by simp [handleParsedMessage, if_pos hle]] at hmem
        simp at hmem
      · rw [show (handleParsedMessage cursor (BrowserIncomingMessage.plain (some n0) payload)).2
            = [⟨cursor, some n0, payload⟩] by simp [handleParsedMessage, if_neg hle]] at hmem
        have hh : h = ⟨cursor, some n0, payload⟩ := by simpa using hmem
        subst hh
        have hn : n0 = n := by simpa using hseq
        subst hn
        exact Nat.lt_of_not_le hle
  | eventReplay events => exact handleEventReplay_handled_gt events cursor

/-- The cursor is non-decreasing across a whole message stream. -/
theorem processMessages_mono :
    ∀ (msgs : List BrowserIncomingMessage) (cursor : Nat),
      cursor ≤ (processMessages cursor msgs).1 := by
  intro msgs
  induction msgs with
  | nil => intro cursor; simp [processMessages]
  | cons m rest ih =>
    intro cursor
    simp only [processMessages]
    exact le_trans (handleParsedMessage_mono cursor m) (ih _)

end Companion.Client

/-- C9: a server message carrying a numeric seq is handled exactly when its
seq exceeds the stored cursor - a message with `seq <= cursor` is silently
dropped (state unchanged, nothing handled) - and handling sets the cursor to
that seq; every handled record (including each entry of an `event_replay`
batch, which is filtered entry-wise) had its seq strictly above the cursor
at its turn, and a replay ends with the cursor at the last handled entry's
seq; consequently the per-session cursor is non-decreasing across any
processed message stream. -/
theorem claim_C9_cursor_filter_monotone (cursor : Nat) :
    (∀ (n : Nat) (payload : String),
      (n ≤ cursor →
        Companion.Client.handleParsedMessage cursor
          (Companion.Client.BrowserIncomingMessage.plain (some n) payload) = (cursor, []))
      ∧ (cursor < n →
        Companion.Client.handleParsedMessage cursor
          (Companion.Client.BrowserIncomingMessage.plain (some n) payload)
          = (n, [⟨cursor, some n, payload⟩])))
    ∧ (∀ msg, ∀ h ∈ (Companion.Client.handleParsedMessage cursor msg).2,
        ∀ n, h.seq = some n → h.prevCursor < n)
    ∧ (∀ msg, cursor ≤ (Companion.Client.handleParsedMessage cursor msg).1)
    ∧ (∀ events,
        ((Companion.Client.handleEventReplay cursor events).2 = []
          → (Companion.Client.handleEventReplay cursor events).1 = cursor)
        ∧ (∀ h, (Companion.Client.handleEventReplay cursor events).2.getLast? = some h →
            h.seq = some ((Companion.Client.handleEventReplay cursor events).1)))
    ∧ (∀ msgs, cursor ≤ (Companion.Client.processMessages cursor msgs).1) := by
  refine ⟨?_, Companion.Client.handleParsedMessage_handled_gt cursor,
    Companion.Client.handleParsedMessage_mono cursor,
    fun events => Companion.Client.handleEventReplay_last events cursor,
    fun msgs => Companion.Client.processMessages_mono msgs cursor⟩
  intro n payload
  constructor
  · intro hle
    simp [Companion.Client.handleParsedMessage, if_pos hle]
  · intro hgt
    simp [Companion.Client.handleParsedMessage, if_neg (Nat.not_le.mpr hgt)]

/-- C9 witness: at cursor 5, seq 3 is dropped, seq 7 is handled and moves
the cursor to 7, and processing a stream does not decrease the cursor. -/
theorem claim_C9_cursor_filter_monotone_witness :
    Companion.Client.handleParsedMessage 5
        (Companion.Client.BrowserIncomingMessage.plain (some 3) "x") = (5, [])
    ∧ Companion.Client.handleParsedMessage 5
        (Companion.Client.BrowserIncomingMessage.plain (some 7) "y")
      = (7, [⟨5, some 7, "y"⟩])
    ∧ 5 ≤ (Companion.Client.processMessages 5
        [Companion.Client.BrowserIncomingMessage.plain (some 7) "y"]).1 :=
  ⟨((claim_C9_cursor_filter_monotone 5).1 3 "x").1 (by decide),
   ((claim_C9_cursor_filter_monotone 5).1 7 "y").2 (by decide),
   (claim_C9_cursor_filter_monotone 5).2.2.2.2
     [Companion.Client.BrowserIncomingMessage.plain (some 7) "y"]⟩
